import Mathlib

/-!
Shallow embedding of `gavin/minimjpeg.py` (the motion-JPEG-over-HTTP
broadcast multiplexer).  The single entry point of the source is
`handle_frame(frame, channel, ip, port, min_delay, default_delay,
max_quality, default_quality, default_chan, headers, debug, sendall)`;
everything a round does is deterministic given the state of the global
`SERVERS` dictionary and the outcome of the external effects (socket
readiness, received bytes, send success, the JPEG encoder).  We model one
call as a pure function of

  * the registry (`SERVERS`) before the call,
  * the call's configuration arguments,
  * a `World` record bundling the clock value `timer()` and oracles for
    every external effect (accept readiness, `recv` results, send
    success, `bind`/`listen` success, the encoder).

Times are exact rationals (the Python floats are only compared, scaled by
constants, and subtracted here, so ℚ is a faithful carrier for the
control flow).  Exceptions are explicit: the body of the `try:` block is
a `BodyResult` distinguishing normal completion from an exception that
reaches the outer `except Exception` handler of lines 234-240.

Batteries marks the `Rat` arithmetic operations `@[irreducible]`; the
concrete witnesses below evaluate whole rounds with `decide`, so those
operations are unsealed (their definitions are unchanged).
-/

unseal Rat.add Rat.sub Rat.mul Rat.inv

namespace Gavin

/-- Time values (Python floats used only through `+ - * < ≤ =`). -/
abbrev Tm := Rat

/-- Remote addresses, abstracted to strings. -/
abbrev Addr := String

/-! ### Association lists standing for Python dictionaries -/

/-- Python dictionary lookup `m[k]` / `k in m`: first binding wins
(our maps keep keys unique, as dicts do). -/
def alookup {α β : Type} [DecidableEq α] : List (α × β) → α → Option β
  | [], _ => none
  | (k, v) :: rest, a => if k = a then some v else alookup rest a

/-- Python dictionary assignment `m[k] = v`: replace in place if the key
is present (dicts keep the insertion position), append otherwise. -/
def aset {α β : Type} [DecidableEq α] : List (α × β) → α → β → List (α × β)
  | [], a, b => [(a, b)]
  | (k, v) :: rest, a, b => if k = a then (a, b) :: rest else (k, v) :: aset rest a b

/-- Python dictionary deletion `del m[k]`. -/
def aremove {α β : Type} [DecidableEq α] (m : List (α × β)) (a : α) : List (α × β) :=
  m.filter (fun p => decide (p.1 ≠ a))

/-! ### The request "parser" (lines 67-68 of the source)

`GET_RE = re.compile(r"GET /(\S*)")` and
`PARAM_RE = re.compile(r"([0-9a-zA-Z_]+)=([0-9a-zA-Z_]+)")`, both used
through `findall`.  For these two patterns, Python's leftmost,
non-overlapping `findall` with greedy repetition is equivalent to the
maximal-munch scans below (shortening the greedy `[0-9a-zA-Z_]+` never
rescues a failed match, because the character that has to follow it is
never itself a word character). -/

/-- `[0-9a-zA-Z_]` of `PARAM_RE` (the source's byte strings are ASCII). -/
def isWordChar (c : Char) : Bool :=
  (('0' ≤ c && c ≤ '9') || ('a' ≤ c && c ≤ 'z') || ('A' ≤ c && c ≤ 'Z') || c = '_')

/-- ASCII whitespace, the complement of `\S` in `GET_RE`. -/
def isSpaceChar (c : Char) : Bool :=
  (c = ' ' || c = '\t' || c = '\n' || c = '\r' || c = Char.ofNat 11 || c = Char.ofNat 12)

/-- `GET_RE.findall(data)`: every occurrence of the literal `GET /`
followed by the greedily captured run of non-whitespace characters.
The fuel argument only bounds the recursion; every step strictly
shortens the character list, so `fuel = length` is exact. -/
def getFindallAux : Nat → List Char → List String
  | 0, _ => []
  | _, [] => []
  | fuel + 1, 'G' :: 'E' :: 'T' :: ' ' :: '/' :: rest =>
      (rest.takeWhile (fun ch => !isSpaceChar ch)).asString
        :: getFindallAux fuel (rest.dropWhile (fun ch => !isSpaceChar ch))
  | fuel + 1, _ :: rest => getFindallAux fuel rest

def getREfindall (s : String) : List String :=
  getFindallAux s.length s.data

/-- `PARAM_RE.findall(data)`: leftmost non-overlapping `key=value`
tokens made of word characters, scanned anywhere in the buffer. -/
def paramFindallAux : Nat → List Char → List (String × String)
  | 0, _ => []
  | _, [] => []
  | fuel + 1, c :: rest =>
    if isWordChar c then
      match (c :: rest).dropWhile isWordChar with
      | '=' :: r2 =>
        if (r2.takeWhile isWordChar).isEmpty then
          paramFindallAux fuel r2
        else
          (((c :: rest).takeWhile isWordChar).asString, (r2.takeWhile isWordChar).asString)
            :: paramFindallAux fuel (r2.dropWhile isWordChar)
      | _ => paramFindallAux fuel ((c :: rest).dropWhile isWordChar)
    else paramFindallAux fuel rest

def paramREfindall (s : String) : List (String × String) :=
  paramFindallAux s.length s.data

/-- `dict(pairs).get(k)`: in the `dict(...)` conversion a later pair for
the same key overrides an earlier one. -/
def pyDictGet (ps : List (String × String)) (k : String) : Option String :=
  match ps with
  | [] => none
  | (k0, v0) :: rest =>
    match pyDictGet rest k with
    | some v => some v
    | none => if k0 = k then some v0 else none

/-- Python `int(s)` applied to a value captured by `PARAM_RE` (so `s`
consists of word characters); a plain decimal digit string converts,
anything else raises `ValueError` (modelled as `none`).  Pythonic
niceties that `PARAM_RE` can still produce, such as digit-group
underscores (`1_0`), are not modelled. -/
def pyInt (s : String) : Option Int :=
  if s.length > 0 && s.data.all Char.isDigit then
    some (Int.ofNat (s.data.foldl (fun n c => n * 10 + (c.toNat - 48)) 0))
  else none

/-- Python `float(s)` under the same restriction (no `.`, `-` or `+` can
appear inside a `PARAM_RE` value; exponent forms such as `1e3` and the
words `inf`/`nan` are not modelled). -/
def pyFloat (s : String) : Option Tm :=
  if s.length > 0 && s.data.all Char.isDigit then
    some ((s.data.foldl (fun n c => n * 10 + (c.toNat - 48)) 0 : Nat) : Tm)
  else none

/-! ### Wire-format constants (lines 66-75 and 210-219) -/

def BOUNDARY : String := "mjpegboundary"

/-- The multipart stream header of lines 70-75.  (Python 3 formats the
`bytes` object `BOUNDARY` through its repr, so on the wire the boundary
text is additionally wrapped as `b<quote>...<quote>`; no claim depends
on the exact byte content, only on the header's identity and length, so
the plain boundary text is used here.) -/
def STREAM_HEADER : String :=
  "HTTP/1.0 200 OK\r\nConnection: close\r\nContent-Type: multipart/x-mixed-replace;boundary="
    ++ BOUNDARY ++ "\r\n\r\n"

/-- `sheaders` of line 210: the caller-supplied extra headers joined. -/
def sheadersStr (hs : List (String × String)) : String :=
  hs.foldl (fun acc p => acc ++ p.1 ++ ": " ++ p.2 ++ "\r\n") ""

/-- `frame_data` of lines 212-219: one multipart chunk. -/
def frame_chunk (jpeg : String) (sheaders : String) : String :=
  "--" ++ BOUNDARY ++ "\r\nContent-Type: image/jpeg\r\nContent-Length: "
    ++ toString jpeg.length ++ "\r\nCache-Control: no-cache\r\n" ++ sheaders ++ "\r\n" ++ jpeg

/-! ### State -/

/-- One value of the inner `clients` dictionary:
`(<client_socket>, <channel>, <quality>, <delay>, <last_sent>, <headers_sent>)`
(the socket handle itself is addressed through the `World` oracles).
`chan` is an `Option` because `default_chan=None` is meaningful
(line 178). -/
structure ClientRecord where
  chan : Option String
  quality : Int
  delay : Tm
  last_sent : Tm
  headers_sent : Bool
deriving DecidableEq, Repr

/-- One value of `SERVERS`: `(<lock>, <server_socket>, <last_times>, <clients>)`
minus the lock and socket handles. -/
structure Endpoint where
  last_times : List (String × Tm)
  clients : List (Addr × ClientRecord)
deriving DecidableEq, Repr

/-- The global `SERVERS` dictionary, keyed by `(ip, port)`. -/
abbrev Registry := List ((String × Nat) × Endpoint)

/-- The explicit arguments of one `handle_frame` call.  `frame = none`
is the shutdown sentinel; frames are otherwise opaque tags. -/
structure Config where
  frame : Option Nat
  channel : String
  ip : String
  port : Nat
  min_delay : Tm
  default_delay : Tm
  max_quality : Int
  default_quality : Int
  default_chan : Option String
  headers : List (String × String)

/-- Outcomes of the external effects during one call: the clock, whether
`bind`/`listen` succeeds, the address `select`+`accept` yields (if any),
what `recv(1500).decode()` produces per readable client (`none`: not
readable; `some none`: `recv`/`decode` raises; `some (some s)`: the
string `s`, possibly empty), whether each `send` succeeds, and the
encoder `_jpeg_compress` (`none`: it raises). -/
structure World where
  now : Tm
  bindOk : Bool
  pending : Option Addr
  recv : Addr → Option (Option String)
  sendHdrOk : Addr → Bool
  sendFrameOk : Addr → Bool
  encode : Nat → Int → Option String

/-- The observable result of one call (`SERVERS` after the call, the
returned `(ret, sent)` pair) together with instrumentation of the events
that happened inside it: how often the encoder was invoked and at which
quality, the frame-chunk `send` calls issued (address and bytes), the
addresses to which `STREAM_HEADER` was successfully sent, the receiver
set and the `last_times[channel]` value the rate-limit gate read, and
whether a fresh listening socket was created (lines 137-140 entered). -/
structure RoundOut where
  servers : Registry
  ret : List Addr
  sent : Nat
  encodeCount : Nat
  encodeQuality : Option Int
  frameSends : List (Addr × String)
  headerSends : List Addr
  receivers : List (Addr × ClientRecord)
  ltBefore : Tm
  socketCreated : Bool
deriving DecidableEq, Repr

/-- Result of the `try:` body, before the outer `except Exception`
handler of line 234: `exn` means an exception reached that handler with
the recorded state (in-place mutations up to the raise persist). -/
inductive BodyResult where
  | ok (r : RoundOut)
  | exn (r : RoundOut)
deriving DecidableEq, Repr

/-- The record inserted on `accept` (line 162):
`(sock, default_chan, default_quality, default_delay, 0.0, False)`. -/
def defaultRecord (cfg : Config) : ClientRecord :=
  { chan := cfg.default_chan, quality := cfg.default_quality, delay := cfg.default_delay,
    last_sent := 0, headers_sent := false }

/-! ### The per-client state machine (lines 169-203) -/

/-- What the request-handling step decides for one readable client. -/
inductive CStep where
  /-- socket not in the readable set: nothing happens. -/
  | notReadable
  /-- the inner `except Exception` fired (empty read, decode error,
  `int`/`float` conversion error): `del clients[addr]`. -/
  | drop
  /-- the directory-page branch (line 178): page served (or the send
  raised), socket closed, `del clients[addr]`. -/
  | index
  /-- lines 191-195: re-negotiated record stored, `headers_sent := True`;
  the stream header is then sent. -/
  | nego (r : ClientRecord)
deriving DecidableEq, Repr

/-- Lines 171-195 for a single client, up to but excluding the header
send: decide the directive from the `recv` outcome. -/
def stepClient (cfg : Config) (recvRes : Option (Option String)) (rec : ClientRecord) : CStep :=
  match recvRes with
  | none => .notReadable
  | some none => .drop
  | some (some data) =>
    if data.length = 0 then .drop
    else
      let paths := getREfindall data
      if paths.contains "index.html" || (paths.contains "" && cfg.default_chan.isNone) then
        .index
      else
        let params := paramREfindall data
        match (match pyDictGet params "quality" with
               | some s => pyInt s
               | none => some rec.quality) with
        | none => .drop
        | some q0 =>
          match (match pyDictGet params "delay" with
                 | some s => pyFloat s
                 | none => some rec.delay) with
          | none => .drop
          | some d0 =>
            .nego { chan :=
                      match pyDictGet params "channel" with
                      | some c => some c
                      | none =>
                        match pyDictGet params "source" with
                        | some c => some c
                        | none => rec.chan,
                    quality := min cfg.max_quality q0,
                    delay := max cfg.min_delay (d0 * (1 / 1000)),
                    last_sent := rec.last_sent,
                    headers_sent := true }

/-- Accumulator of the per-client loop: the `clients` dictionary being
mutated, the running `sent` counter and the addresses that received the
stream header this round. -/
structure PCState where
  cl : List (Addr × ClientRecord)
  sent : Nat
  hdrs : List Addr
deriving DecidableEq, Repr

/-- Apply one client's directive to the loop state (lines 188-203):
`drop`/`index` delete the record; `nego` stores the re-negotiated record
and sends `STREAM_HEADER` (a failing send raises into the inner handler,
which deletes the record). -/
def applyClient (w : World) (cfg : Config) (st : PCState) (p : Addr × ClientRecord) : PCState :=
  match stepClient cfg (w.recv p.1) p.2 with
  | .notReadable => st
  | .drop => ⟨aremove st.cl p.1, st.sent, st.hdrs⟩
  | .index => ⟨aremove st.cl p.1, st.sent, st.hdrs⟩
  | .nego r =>
    if w.sendHdrOk p.1 then
      ⟨aset st.cl p.1 r, st.sent + STREAM_HEADER.length, st.hdrs ++ [p.1]⟩
    else
      ⟨aremove (aset st.cl p.1 r) p.1, st.sent, st.hdrs⟩

/-- The `for addr, (...) in list(clients.items())` loop of line 169: the
snapshot is the dictionary as it stood after the accept step. -/
def processClients (w : World) (cfg : Config) (snapshot : List (Addr × ClientRecord))
    (st : PCState) : PCState :=
  snapshot.foldl (applyClient w cfg) st

/-! ### The broadcast phase (lines 204-233) -/

/-- Line 204-205's filter:
`hs and c == channel and now - t >= d`. -/
def isReceiver (now : Tm) (channel : String) (p : Addr × ClientRecord) : Bool :=
  p.2.headers_sent && p.2.chan = some channel && decide (now - p.2.last_sent ≥ p.2.delay)

/-- `max([q for ...])` over the (non-empty) receiver list (line 211). -/
def maxQuality : List (Addr × ClientRecord) → Int
  | [] => 0
  | (_, r) :: rest => rest.foldl (fun m p => max m p.2.quality) r.quality

/-- Accumulator of the fan-out loop of lines 220-232. -/
structure FanState where
  cl : List (Addr × ClientRecord)
  sent : Nat
  sends : List (Addr × String)
deriving DecidableEq, Repr

/-- Lines 220-232: send the one chunk to every receiver; on success
update that client's `last_sent` to `now` (keeping the receiver-snapshot
fields, line 228), on a raising send delete the client.  The send
attempt itself is recorded in either case. -/
def fanout (w : World) (fd : String) : List (Addr × ClientRecord) → FanState → FanState
  | [], st => st
  | (a, rec) :: rest, st =>
    if w.sendFrameOk a then
      fanout w fd rest
        ⟨aset st.cl a { rec with last_sent := w.now }, st.sent + fd.length,
         st.sends ++ [(a, fd)]⟩
    else
      fanout w fd rest ⟨aremove st.cl a, st.sent, st.sends ++ [(a, fd)]⟩

/-- Lines 204-233: compute the receiver set from the parsed client
table `pcs.cl`, apply the two-part gate of line 206, encode once, fan
out, stamp `last_times[channel] = now`.  `servers1` is `SERVERS` with
the endpoint present at `(ip, port)`; the mutated endpoint is written
back on every exit. -/
def broadcastPhase (w : World) (cfg : Config) (frame : Nat) (servers1 : Registry)
    (lt : List (String × Tm)) (pcs : PCState) (ret : List Addr) (created : Bool) :
    BodyResult :=
  if (pcs.cl.filter (isReceiver w.now cfg.channel)).isEmpty
      || decide (w.now - (alookup lt cfg.channel).getD 0 < cfg.min_delay) then
    .ok { servers := aset servers1 (cfg.ip, cfg.port) ⟨lt, pcs.cl⟩, ret := ret,
          sent := pcs.sent, encodeCount := 0, encodeQuality := none, frameSends := [],
          headerSends := pcs.hdrs,
          receivers := pcs.cl.filter (isReceiver w.now cfg.channel),
          ltBefore := (alookup lt cfg.channel).getD 0, socketCreated := created }
  else
    match w.encode frame (maxQuality (pcs.cl.filter (isReceiver w.now cfg.channel))) with
    | none =>
      .exn { servers := aset servers1 (cfg.ip, cfg.port) ⟨lt, pcs.cl⟩, ret := ret,
             sent := pcs.sent, encodeCount := 1,
             encodeQuality := some (maxQuality (pcs.cl.filter (isReceiver w.now cfg.channel))),
             frameSends := [], headerSends := pcs.hdrs,
             receivers := pcs.cl.filter (isReceiver w.now cfg.channel),
             ltBefore := (alookup lt cfg.channel).getD 0, socketCreated := created }
    | some jpeg =>
      .ok { servers := aset servers1 (cfg.ip, cfg.port)
              ⟨aset lt cfg.channel w.now,
               (fanout w (frame_chunk jpeg (sheadersStr cfg.headers))
                  (pcs.cl.filter (isReceiver w.now cfg.channel)) ⟨pcs.cl, pcs.sent, []⟩).cl⟩,
            ret := ret,
            sent := (fanout w (frame_chunk jpeg (sheadersStr cfg.headers))
                (pcs.cl.filter (isReceiver w.now cfg.channel)) ⟨pcs.cl, pcs.sent, []⟩).sent,
            encodeCount := 1,
            encodeQuality := some (maxQuality (pcs.cl.filter (isReceiver w.now cfg.channel))),
            frameSends := (fanout w (frame_chunk jpeg (sheadersStr cfg.headers))
                (pcs.cl.filter (isReceiver w.now cfg.channel)) ⟨pcs.cl, pcs.sent, []⟩).sends,
            headerSends := pcs.hdrs,
            receivers := pcs.cl.filter (isReceiver w.now cfg.channel),
            ltBefore := (alookup lt cfg.channel).getD 0, socketCreated := created }

/-- Lines 146-147: `if channel not in last_times: last_times[channel] = now - 1.0`. -/
def ltInit (w : World) (cfg : Config) (lt : List (String × Tm)) : List (String × Tm) :=
  if (alookup lt cfg.channel).isSome then lt else aset lt cfg.channel (w.now - 1)

/-- Lines 157-162: accept at most one pending connection, inserting the
default record. -/
def acceptStep (w : World) (cfg : Config) (cl : List (Addr × ClientRecord)) :
    List (Addr × ClientRecord) :=
  match w.pending with
  | some a => aset cl a (defaultRecord cfg)
  | none => cl

/-- Lines 163-233, after the accept step: short-circuit when no clients
exist (lines 163-166), else run the per-client loop and the broadcast
phase. -/
def runAccepted (w : World) (cfg : Config) (frame : Nat) (servers1 : Registry)
    (lt : List (String × Tm)) (cl1 : List (Addr × ClientRecord)) (created : Bool) :
    BodyResult :=
  if cl1.isEmpty then
    .ok { servers := aset servers1 (cfg.ip, cfg.port) ⟨lt, cl1⟩, ret := [], sent := 0,
          encodeCount := 0, encodeQuality := none, frameSends := [], headerSends := [],
          receivers := [], ltBefore := 0, socketCreated := created }
  else
    broadcastPhase w cfg frame servers1 lt (processClients w cfg cl1 ⟨cl1, 0, []⟩)
      (cl1.map Prod.fst) created

/-- Lines 145-233, given the endpoint found (or just created) for
`(ip, port)`: initialise `last_times[channel]` if absent, handle the
shutdown sentinel, then accept/parse/broadcast. -/
def runRound (w : World) (cfg : Config) (servers1 : Registry) (ep : Endpoint)
    (created : Bool) : BodyResult :=
  match cfg.frame with
  | none =>
    .ok { servers := aremove servers1 (cfg.ip, cfg.port), ret := [], sent := 0,
          encodeCount := 0, encodeQuality := none, frameSends := [], headerSends := [],
          receivers := [], ltBefore := 0, socketCreated := created }
  | some frame =>
    runAccepted w cfg frame servers1 (ltInit w cfg ep.last_times)
      (acceptStep w cfg ep.clients) created

/-- The whole `try:` body (lines 132-233): look up `(ip, port)` in
`SERVERS`, creating (socket + bind + listen + register) on a miss; a
failing `bind`/`listen` raises with nothing registered. -/
def handle_frame_body (w : World) (cfg : Config) (servers : Registry) : BodyResult :=
  match alookup servers (cfg.ip, cfg.port) with
  | some ep => runRound w cfg servers ep false
  | none =>
    if w.bindOk then
      runRound w cfg (aset servers (cfg.ip, cfg.port) ⟨[], []⟩) ⟨[], []⟩ true
    else
      .exn { servers := servers, ret := [], sent := 0, encodeCount := 0, encodeQuality := none,
             frameSends := [], headerSends := [], receivers := [], ltBefore := 0,
             socketCreated := true }

/-- One `handle_frame` call.  The outer `except Exception` of lines
234-240 swallows any exception from the body and falls through to
`return ret, sent`, so a caller sees a raise only if one escaped the
handler itself — which nothing in the body can cause; the `Except` layer
records precisely this interface. -/
def handle_frame (w : World) (cfg : Config) (servers : Registry) : Except Unit RoundOut :=
  match handle_frame_body w cfg servers with
  | .ok r => .ok r
  | .exn r => .ok r

/-- Project the (always present) result of a call. -/
def theOut (e : Except Unit RoundOut) : RoundOut :=
  match e with
  | .ok r => r
  | .error _ =>
    { servers := [], ret := [], sent := 0, encodeCount := 0, encodeQuality := none,
      frameSends := [], headerSends := [], receivers := [], ltBefore := 0,
      socketCreated := false }

/-- Did the round issue at least one frame-chunk send? -/
def sendsFrame (e : Except Unit RoundOut) : Bool :=
  !(theOut e).frameSends.isEmpty

/-- The client record stored for `a` under endpoint `la` after a call. -/
def storedClient (e : Except Unit RoundOut) (la : String × Nat) (a : Addr) :
    Option ClientRecord :=
  match alookup (theOut e).servers la with
  | some ep => alookup ep.clients a
  | none => none

/-- The state the `try:` body left behind, whether it completed or its
exception was caught. -/
def BodyResult.out : BodyResult → RoundOut
  | .ok r => r
  | .exn r => r

/-- Did an exception reach the outer handler? -/
def BodyResult.isExnB : BodyResult → Bool
  | .ok _ => false
  | .exn _ => true

/-! ### Basic dictionary lemmas -/

theorem alookup_aset_self {α β : Type} [DecidableEq α] (m : List (α × β)) (k : α) (v : β) :
    alookup (aset m k v) k = some v := by
  induction m with
  | nil => simp [aset, alookup]
  | cons p rest ih =>
    obtain ⟨k0, v0⟩ := p
    by_cases h : k0 = k <;> simp [aset, alookup, h, ih]

theorem alookup_aremove_self {α β : Type} [DecidableEq α] (m : List (α × β)) (k : α) :
    alookup (aremove m k) k = none := by
  induction m with
  | nil => simp [aremove, alookup]
  | cons p rest ih =>
    obtain ⟨k0, v0⟩ := p
    by_cases h : k0 = k <;> simp [aremove, alookup, List.filter_cons, h] at ih ⊢ <;>
      simpa [aremove] using ih

theorem mem_aset {α β : Type} [DecidableEq α] {m : List (α × β)} {k : α} {v : β}
    {p : α × β} (h : p ∈ aset m k v) : p ∈ m ∨ p = (k, v) := by
  induction m with
  | nil => simpa [aset] using h
  | cons q rest ih =>
    obtain ⟨k0, v0⟩ := q
    by_cases hc : k0 = k
    · simp only [aset, if_pos hc] at h
      rcases List.mem_cons.1 h with h | h
      · exact Or.inr h
      · exact Or.inl (List.mem_cons_of_mem _ h)
    · simp only [aset, if_neg hc] at h
      rcases List.mem_cons.1 h with h | h
      · exact Or.inl (h ▸ List.mem_cons_self _ _)
      · rcases ih h with h | h
        · exact Or.inl (List.mem_cons_of_mem _ h)
        · exact Or.inr h

theorem mem_aremove {α β : Type} [DecidableEq α] {m : List (α × β)} {k : α}
    {p : α × β} (h : p ∈ aremove m k) : p ∈ m ∧ p.1 ≠ k := by
  have := List.mem_filter.1 h
  exact ⟨this.1, by simpa using this.2⟩

theorem aset_of_lookup_none {α β : Type} [DecidableEq α] {m : List (α × β)} {k : α}
    (v : β) (h : alookup m k = none) : aset m k v = m ++ [(k, v)] := by
  induction m with
  | nil => simp [aset]
  | cons p rest ih =>
    obtain ⟨k0, v0⟩ := p
    by_cases hc : k0 = k
    · simp [alookup, hc] at h
    · simp only [alookup, if_neg hc] at h
      simp [aset, hc, ih h]

theorem aremove_of_lookup_none {α β : Type} [DecidableEq α] {m : List (α × β)} {k : α}
    (h : alookup m k = none) : aremove m k = m := by
  induction m with
  | nil => simp [aremove]
  | cons p rest ih =>
    obtain ⟨k0, v0⟩ := p
    by_cases hc : k0 = k
    · simp [alookup, hc] at h
    · simp only [alookup, if_neg hc] at h
      simp [aremove, List.filter_cons, hc, aremove_of_lookup_none h] at ih ⊢
      simpa [aremove] using ih h

theorem aremove_aset_of_lookup_none {α β : Type} [DecidableEq α] {m : List (α × β)}
    {k : α} (v : β) (h : alookup m k = none) : aremove (aset m k v) k = m := by
  rw [aset_of_lookup_none v h]
  show List.filter _ _ = m
  rw [List.filter_append]
  have h1 : aremove m k = m := aremove_of_lookup_none h
  have h2 : aremove [(k, v)] k = [] := by simp [aremove]
  simpa [aremove] using congrArg₂ (· ++ ·) h1 h2

/-! ### Loop lemmas -/

theorem fanout_sends (w : World) (fd : String) (l : List (Addr × ClientRecord))
    (st : FanState) :
    (fanout w fd l st).sends = st.sends ++ l.map (fun p => (p.1, fd)) := by
  induction l generalizing st with
  | nil => simp [fanout]
  | cons p rest ih =>
    obtain ⟨a, rec⟩ := p
    by_cases h : w.sendFrameOk a = true <;> simp [fanout, h, ih]

theorem mem_fanout_cl (w : World) (fd : String) (l : List (Addr × ClientRecord))
    (st : FanState) {p : Addr × ClientRecord} (h : p ∈ (fanout w fd l st).cl) :
    p ∈ st.cl ∨ ∃ q ∈ l, p = (q.1, { q.2 with last_sent := w.now }) := by
  induction l generalizing st with
  | nil => exact Or.inl (by simpa [fanout] using h)
  | cons q rest ih =>
    obtain ⟨a, rec⟩ := q
    by_cases hok : w.sendFrameOk a = true
    · simp only [fanout, if_pos hok] at h
      rcases ih _ h with hm | ⟨q', hq', hp⟩
      · rcases mem_aset hm with hm | hm
        · exact Or.inl hm
        · exact Or.inr ⟨(a, rec), List.mem_cons_self _ _, hm⟩
      · exact Or.inr ⟨q', List.mem_cons_of_mem _ hq', hp⟩
    · simp only [fanout, if_neg hok] at h
      rcases ih _ h with hm | ⟨q', hq', hp⟩
      · exact Or.inl (mem_aremove hm).1
      · exact Or.inr ⟨q', List.mem_cons_of_mem _ hq', hp⟩

theorem applyClient_hdrs_mono (w : World) (cfg : Config) (st : PCState)
    (p : Addr × ClientRecord) {a : Addr} (h : a ∈ st.hdrs) :
    a ∈ (applyClient w cfg st p).hdrs := by
  unfold applyClient
  cases stepClient cfg (w.recv p.1) p.2 with
  | nego r =>
    by_cases hok : w.sendHdrOk p.1 = true <;>
      simp [hok, List.mem_append, h]
  | notReadable => exact h
  | drop => exact h
  | index => exact h

theorem processClients_hdrs_mono (w : World) (cfg : Config)
    (l : List (Addr × ClientRecord)) (st : PCState) {a : Addr} (h : a ∈ st.hdrs) :
    a ∈ (processClients w cfg l st).hdrs := by
  induction l generalizing st with
  | nil => exact h
  | cons p rest ih =>
    exact ih (applyClient w cfg st p) (applyClient_hdrs_mono w cfg st p h)

/-- The header-precedence invariant carried through the per-client loop:
every stored record whose `headers_sent` flag is set either was already
flagged in the base dictionary, or got the stream header this round. -/
def hsInvP (base : List (Addr × ClientRecord)) (st : PCState) : Prop :=
  ∀ a r, (a, r) ∈ st.cl → r.headers_sent = true →
    (∃ r0, (a, r0) ∈ base ∧ r0.headers_sent = true) ∨ a ∈ st.hdrs

theorem applyClient_hsInv (w : World) (cfg : Config) (base : List (Addr × ClientRecord))
    (st : PCState) (p : Addr × ClientRecord) (h : hsInvP base st) :
    hsInvP base (applyClient w cfg st p) := by
  unfold applyClient
  cases stepClient cfg (w.recv p.1) p.2 with
  | notReadable => exact h
  | drop => exact fun a r hm hr => h a r (mem_aremove hm).1 hr
  | index => exact fun a r hm hr => h a r (mem_aremove hm).1 hr
  | nego r0 =>
    by_cases hok : w.sendHdrOk p.1 = true
    · simp only [if_pos hok]
      intro a r hm hr
      rcases mem_aset hm with hm | hm
      · rcases h a r hm hr with hb | hh
        · exact Or.inl hb
        · exact Or.inr (by simp [List.mem_append, hh])
      · have : a = p.1 := congrArg Prod.fst hm
        exact Or.inr (by simp [List.mem_append, this])
    · simp only [if_neg hok]
      intro a r hm hr
      have h1 := mem_aremove hm
      rcases mem_aset h1.1 with hm2 | hm2
      · exact h a r hm2 hr
      · exact absurd (congrArg Prod.fst hm2) h1.2

theorem processClients_hsInv (w : World) (cfg : Config)
    (base : List (Addr × ClientRecord)) (l : List (Addr × ClientRecord)) (st : PCState)
    (h : hsInvP base st) : hsInvP base (processClients w cfg l st) := by
  induction l generalizing st with
  | nil => exact h
  | cons p rest ih =>
    exact ih (applyClient w cfg st p) (applyClient_hsInv w cfg base st p h)

/-! ### Facts about the broadcast phase -/

/-- Whatever path the broadcast phase takes, its recorded receiver set
consists of elements of the parsed client table satisfying the filter of
lines 204-205. -/
theorem bp_receivers_mem (w : World) (cfg : Config) (frame : Nat) (S1 : Registry)
    (lt : List (String × Tm)) (pcs : PCState) (ret : List Addr) (c : Bool)
    {p : Addr × ClientRecord}
    (hp : p ∈ (broadcastPhase w cfg frame S1 lt pcs ret c).out.receivers) :
    p ∈ pcs.cl ∧ isReceiver w.now cfg.channel p = true := by
  unfold broadcastPhase at hp
  split at hp
  · exact ⟨(List.mem_filter.1 hp).1, (List.mem_filter.1 hp).2⟩
  · split at hp <;>
      exact ⟨(List.mem_filter.1 hp).1, (List.mem_filter.1 hp).2⟩

/-- If the broadcast phase issued frame-chunk sends, then it passed the
two-part gate of line 206, encoded exactly once at the maximal receiver
quality, sent the identical chunk to exactly the receivers, and stamped
`last_times[channel] = now` (line 233). -/
theorem bp_sends_facts (w : World) (cfg : Config) (frame : Nat) (S1 : Registry)
    (lt : List (String × Tm)) (pcs : PCState) (ret : List Addr) (c : Bool)
    (b : BodyResult) (hb : b = broadcastPhase w cfg frame S1 lt pcs ret c)
    (hs : b.out.frameSends ≠ []) :
    b.out.receivers ≠ [] ∧ w.now - b.out.ltBefore ≥ cfg.min_delay ∧
    b.out.encodeCount = 1 ∧
    b.out.encodeQuality = some (maxQuality b.out.receivers) ∧
    (∃ jpeg, w.encode frame (maxQuality b.out.receivers) = some jpeg ∧
      b.out.frameSends = b.out.receivers.map
        (fun p => (p.1, frame_chunk jpeg (sheadersStr cfg.headers)))) ∧
    (∃ ep, alookup b.out.servers (cfg.ip, cfg.port) = some ep ∧
      alookup ep.last_times cfg.channel = some w.now) := by
  unfold broadcastPhase at hb
  split at hb
  · rw [hb] at hs
    simp [BodyResult.out] at hs
  · rename_i hgate
    have hne : ¬(pcs.cl.filter (isReceiver w.now cfg.channel)).isEmpty = true := by
      intro hx
      exact hgate (by simp [hx])
    have hlt : ¬(w.now - (alookup lt cfg.channel).getD 0 < cfg.min_delay) := by
      intro hx
      exact hgate (by simp [hx])
    split at hb
    · rw [hb] at hs
      simp [BodyResult.out] at hs
    · rename_i jpeg hencode
      rw [hb]
      simp only [BodyResult.out]
      refine ⟨by simpa [List.isEmpty_iff] using hne, by simpa using hlt, trivial, trivial,
        ⟨jpeg, hencode, ?_⟩, ⟨_, alookup_aset_self .., alookup_aset_self ..⟩⟩
      simpa using
        fanout_sends w (frame_chunk jpeg (sheadersStr cfg.headers))
          (pcs.cl.filter (isReceiver w.now cfg.channel)) ⟨pcs.cl, pcs.sent, []⟩

/-- If the encoder cannot raise, a broadcast phase that issues no
frame-chunk send performs no encode at all. -/
theorem bp_nosends_count (w : World) (cfg : Config) (frame : Nat) (S1 : Registry)
    (lt : List (String × Tm)) (pcs : PCState) (ret : List Addr) (c : Bool)
    (b : BodyResult) (hb : b = broadcastPhase w cfg frame S1 lt pcs ret c)
    (hEnc : ∀ q, (w.encode frame q).isSome = true)
    (hs : b.out.frameSends = []) : b.out.encodeCount = 0 := by
  unfold broadcastPhase at hb
  split at hb
  · rw [hb]
    simp [BodyResult.out]
  · rename_i hgate
    split at hb
    · rename_i hencode
      have := hEnc (maxQuality (pcs.cl.filter (isReceiver w.now cfg.channel)))
      simp [hencode] at this
    · rename_i jpeg hencode
      have hne : ¬(pcs.cl.filter (isReceiver w.now cfg.channel)).isEmpty = true := by
        intro hx
        exact hgate (by simp [hx])
      rw [List.isEmpty_iff] at hne
      rw [hb] at hs
      simp only [BodyResult.out] at hs
      rw [fanout_sends] at hs
      simp only [List.nil_append, List.map_eq_nil_iff] at hs
      exact absurd hs hne

/-- A record inserted by the accept step with its `headers_sent` flag
already raised must have been in the table before the accept. -/
theorem acceptStep_hs (w : World) (cfg : Config) (cl : List (Addr × ClientRecord))
    {a : Addr} {r : ClientRecord} (hm : (a, r) ∈ acceptStep w cfg cl)
    (hr : r.headers_sent = true) : (a, r) ∈ cl := by
  rcases hp : w.pending with _ | a0
  · simp only [acceptStep, hp] at hm
    exact hm
  · simp only [acceptStep, hp] at hm
    rcases mem_aset hm with hm | hm
    · exact hm
    · have : r = defaultRecord cfg := congrArg Prod.snd hm
      rw [this] at hr
      simp [defaultRecord] at hr

/-- Header precedence through the broadcast phase: a stored record with
`headers_sent` set either already satisfied the invariant before the
phase or is a `last_sent` update of one that did. -/
theorem bp_hs_origin (w : World) (cfg : Config) (frame : Nat) (S1 : Registry)
    (lt : List (String × Tm)) (pcs : PCState) (ret : List Addr) (c : Bool)
    (base : List (Addr × ClientRecord)) (hinv : hsInvP base pcs)
    (b : BodyResult) (hb : b = broadcastPhase w cfg frame S1 lt pcs ret c)
    {ep1 : Endpoint} {a : Addr} {r1 : ClientRecord}
    (h1 : alookup b.out.servers (cfg.ip, cfg.port) = some ep1)
    (h2 : (a, r1) ∈ ep1.clients) (h3 : r1.headers_sent = true) :
    a ∈ b.out.headerSends ∨ ∃ r0, (a, r0) ∈ base ∧ r0.headers_sent = true := by
  unfold broadcastPhase at hb
  split at hb
  · rw [hb] at h1 ⊢
    simp only [BodyResult.out, alookup_aset_self, Option.some.injEq] at h1
    rw [← h1] at h2
    rcases hinv a r1 h2 h3 with hbase | hh
    · exact Or.inr hbase
    · exact Or.inl hh
  · split at hb
    · rw [hb] at h1 ⊢
      simp only [BodyResult.out, alookup_aset_self, Option.some.injEq] at h1
      rw [← h1] at h2
      rcases hinv a r1 h2 h3 with hbase | hh
      · exact Or.inr hbase
      · exact Or.inl hh
    · rename_i jpeg hencode
      rw [hb] at h1 ⊢
      simp only [BodyResult.out, alookup_aset_self, Option.some.injEq] at h1
      rw [← h1] at h2
      rcases mem_fanout_cl _ _ _ _ h2 with hm | ⟨q, hq, hp⟩
      · rcases hinv a r1 hm h3 with hbase | hh
        · exact Or.inr hbase
        · exact Or.inl hh
      · have hqcl : q ∈ pcs.cl := (List.mem_filter.1 hq).1
        have ha : a = q.1 := congrArg Prod.fst hp
        have hr : r1 = { q.2 with last_sent := w.now } := congrArg Prod.snd hp
        have hqhs : q.2.headers_sent = true := by
          rw [hr] at h3
          exact h3
        rcases hinv q.1 q.2 (by simpa using hqcl) hqhs with hbase | hh
        · exact Or.inr (ha ▸ hbase)
        · exact Or.inl (ha ▸ hh)

/-- Lift of `bp_hs_origin` through `runRound`: the base dictionary is
the endpoint's client table before the call. -/
theorem rr_hs_origin (w : World) (cfg : Config) (S1 : Registry) (ep : Endpoint)
    (c : Bool) {ep1 : Endpoint} {a : Addr} {r1 : ClientRecord}
    (h1 : alookup (runRound w cfg S1 ep c).out.servers (cfg.ip, cfg.port) = some ep1)
    (h2 : (a, r1) ∈ ep1.clients) (h3 : r1.headers_sent = true) :
    a ∈ (runRound w cfg S1 ep c).out.headerSends ∨
      ∃ r0, (a, r0) ∈ ep.clients ∧ r0.headers_sent = true := by
  rcases hf : cfg.frame with _ | frame
  · simp only [runRound, hf, BodyResult.out] at h1
    rw [alookup_aremove_self] at h1
    exact absurd h1 (by simp)
  · simp only [runRound, hf] at h1 ⊢
    unfold runAccepted at h1 ⊢
    by_cases he : (acceptStep w cfg ep.clients).isEmpty = true
    · rw [if_pos he] at h1 ⊢
      simp only [BodyResult.out, alookup_aset_self, Option.some.injEq] at h1
      rw [← h1] at h2
      exact Or.inr ⟨r1, acceptStep_hs w cfg ep.clients h2 h3, h3⟩
    · rw [if_neg he] at h1 ⊢
      have hinv : hsInvP ep.clients
          (processClients w cfg (acceptStep w cfg ep.clients)
            ⟨acceptStep w cfg ep.clients, 0, []⟩) := by
        refine processClients_hsInv w cfg _ _ _ ?_
        intro a' r' hm hr
        exact Or.inl ⟨r', acceptStep_hs w cfg ep.clients hm hr, hr⟩
      rcases bp_hs_origin w cfg frame S1 (ltInit w cfg ep.last_times)
          (processClients w cfg (acceptStep w cfg ep.clients)
            ⟨acceptStep w cfg ep.clients, 0, []⟩)
          ((acceptStep w cfg ep.clients).map Prod.fst) c ep.clients hinv _ rfl h1 h2 h3 with
        hh | hbase
      · exact Or.inl hh
      · exact Or.inr hbase

/-- Header precedence at the level of the whole `try:` body. -/
theorem body_hs_origin (w : World) (cfg : Config) (S : Registry)
    {ep1 : Endpoint} {a : Addr} {r1 : ClientRecord}
    (h1 : alookup (handle_frame_body w cfg S).out.servers (cfg.ip, cfg.port) = some ep1)
    (h2 : (a, r1) ∈ ep1.clients) (h3 : r1.headers_sent = true) :
    a ∈ (handle_frame_body w cfg S).out.headerSends ∨
      ∃ ep0 r0, alookup S (cfg.ip, cfg.port) = some ep0 ∧ (a, r0) ∈ ep0.clients ∧
        r0.headers_sent = true := by
  unfold handle_frame_body at h1 ⊢
  cases hlook : alookup S (cfg.ip, cfg.port) with
  | some ep0 =>
    rw [hlook] at h1
    rcases rr_hs_origin w cfg S ep0 false h1 h2 h3 with hh | ⟨r0, hm, hr⟩
    · exact Or.inl hh
    · exact Or.inr ⟨ep0, r0, rfl, hm, hr⟩
  | none =>
    rw [hlook] at h1
    by_cases hbind : w.bindOk = true
    · rw [if_pos hbind] at h1 ⊢
      rcases rr_hs_origin w cfg (aset S (cfg.ip, cfg.port) ⟨[], []⟩) ⟨[], []⟩ true
          h1 h2 h3 with hh | ⟨r0, hm, _⟩
      · exact Or.inl hh
      · exact absurd hm (by simp)
    · rw [if_neg hbind] at h1
      simp only [BodyResult.out] at h1
      rw [hlook] at h1
      exact absurd h1 (by simp)

/-- Every recorded receiver passes the filter of lines 204-205
(`runRound` level). -/
theorem rr_receivers_mem (w : World) (cfg : Config) (S1 : Registry) (ep : Endpoint)
    (c : Bool) {p : Addr × ClientRecord}
    (hp : p ∈ (runRound w cfg S1 ep c).out.receivers) :
    isReceiver w.now cfg.channel p = true := by
  rcases hf : cfg.frame with _ | frame
  · simp only [runRound, hf, BodyResult.out] at hp
    simp at hp
  · simp only [runRound, hf] at hp
    unfold runAccepted at hp
    by_cases he : (acceptStep w cfg ep.clients).isEmpty = true
    · rw [if_pos he] at hp
      simp [BodyResult.out] at hp
    · rw [if_neg he] at hp
      exact (bp_receivers_mem _ _ _ _ _ _ _ _ hp).2

/-- Every recorded receiver passes the filter of lines 204-205
(whole-body level). -/
theorem body_receivers_mem (w : World) (cfg : Config) (S : Registry)
    {p : Addr × ClientRecord}
    (hp : p ∈ (handle_frame_body w cfg S).out.receivers) :
    isReceiver w.now cfg.channel p = true := by
  cases hlook : alookup S (cfg.ip, cfg.port) with
  | some ep0 =>
    simp only [handle_frame_body, hlook] at hp
    exact rr_receivers_mem w cfg S ep0 false hp
  | none =>
    simp only [handle_frame_body, hlook] at hp
    by_cases hbind : w.bindOk = true
    · rw [if_pos hbind] at hp
      exact rr_receivers_mem w cfg _ ⟨[], []⟩ true hp
    · rw [if_neg hbind] at hp
      simp [BodyResult.out] at hp

/-- `runRound`-level lift of `bp_sends_facts`, adding that a sending
round necessarily had a real frame (not the shutdown sentinel). -/
theorem rr_sends_facts (w : World) (cfg : Config) (S1 : Registry) (ep : Endpoint)
    (c : Bool) (hs : (runRound w cfg S1 ep c).out.frameSends ≠ []) :
    (runRound w cfg S1 ep c).out.receivers ≠ [] ∧
    w.now - (runRound w cfg S1 ep c).out.ltBefore ≥ cfg.min_delay ∧
    (runRound w cfg S1 ep c).out.encodeCount = 1 ∧
    (runRound w cfg S1 ep c).out.encodeQuality
      = some (maxQuality (runRound w cfg S1 ep c).out.receivers) ∧
    (∃ f jpeg, cfg.frame = some f ∧
       w.encode f (maxQuality (runRound w cfg S1 ep c).out.receivers) = some jpeg ∧
       (runRound w cfg S1 ep c).out.frameSends
         = (runRound w cfg S1 ep c).out.receivers.map
             (fun p => (p.1, frame_chunk jpeg (sheadersStr cfg.headers)))) ∧
    (∃ ep2, alookup (runRound w cfg S1 ep c).out.servers (cfg.ip, cfg.port) = some ep2 ∧
       alookup ep2.last_times cfg.channel = some w.now) := by
  rcases hf : cfg.frame with _ | frame
  · simp only [runRound, hf, BodyResult.out] at hs
    simp at hs
  · simp only [runRound, hf] at hs ⊢
    unfold runAccepted at hs ⊢
    by_cases he : (acceptStep w cfg ep.clients).isEmpty = true
    · rw [if_pos he] at hs
      simp [BodyResult.out] at hs
    · rw [if_neg he] at hs ⊢
      obtain ⟨h1, h2, h3, h4, ⟨jpeg, hj1, hj2⟩, h6⟩ :=
        bp_sends_facts w cfg frame S1 (ltInit w cfg ep.last_times)
          (processClients w cfg (acceptStep w cfg ep.clients)
            ⟨acceptStep w cfg ep.clients, 0, []⟩)
          ((acceptStep w cfg ep.clients).map Prod.fst) c _ rfl hs
      exact ⟨h1, h2, h3, h4, ⟨frame, jpeg, rfl, hj1, hj2⟩, h6⟩

/-- Whole-body lift of `bp_sends_facts`: a round that issued a
frame-chunk send passed the gate, encoded once at the maximal receiver
quality, fanned the single chunk out to exactly the receivers, and
stamped `last_times[channel] = now`. -/
theorem body_sends_facts (w : World) (cfg : Config) (S : Registry)
    (hs : (handle_frame_body w cfg S).out.frameSends ≠ []) :
    (handle_frame_body w cfg S).out.receivers ≠ [] ∧
    w.now - (handle_frame_body w cfg S).out.ltBefore ≥ cfg.min_delay ∧
    (handle_frame_body w cfg S).out.encodeCount = 1 ∧
    (handle_frame_body w cfg S).out.encodeQuality
      = some (maxQuality (handle_frame_body w cfg S).out.receivers) ∧
    (∃ f jpeg, cfg.frame = some f ∧
       w.encode f (maxQuality (handle_frame_body w cfg S).out.receivers) = some jpeg ∧
       (handle_frame_body w cfg S).out.frameSends
         = (handle_frame_body w cfg S).out.receivers.map
             (fun p => (p.1, frame_chunk jpeg (sheadersStr cfg.headers)))) ∧
    (∃ ep2, alookup (handle_frame_body w cfg S).out.servers (cfg.ip, cfg.port) = some ep2 ∧
       alookup ep2.last_times cfg.channel = some w.now) := by
  cases hlook : alookup S (cfg.ip, cfg.port) with
  | some ep0 =>
    simp only [handle_frame_body, hlook] at hs ⊢
    exact rr_sends_facts w cfg S ep0 false hs
  | none =>
    simp only [handle_frame_body, hlook] at hs ⊢
    by_cases hbind : w.bindOk = true
    · rw [if_pos hbind] at hs ⊢
      exact rr_sends_facts w cfg _ ⟨[], []⟩ true hs
    · rw [if_neg hbind] at hs
      simp [BodyResult.out] at hs

/-- If the encoder cannot raise, a round with no frame-chunk send
performed no encode (`runRound` level). -/
theorem rr_nosends_count (w : World) (cfg : Config) (S1 : Registry) (ep : Endpoint)
    (c : Bool) (hEnc : ∀ f q, (w.encode f q).isSome = true)
    (hs : (runRound w cfg S1 ep c).out.frameSends = []) :
    (runRound w cfg S1 ep c).out.encodeCount = 0 := by
  rcases hf : cfg.frame with _ | frame
  · simp only [runRound, hf, BodyResult.out]
  · simp only [runRound, hf] at hs ⊢
    unfold runAccepted at hs ⊢
    by_cases he : (acceptStep w cfg ep.clients).isEmpty = true
    · rw [if_pos he]
      simp [BodyResult.out]
    · rw [if_neg he] at hs ⊢
      exact bp_nosends_count w cfg frame S1 (ltInit w cfg ep.last_times)
        (processClients w cfg (acceptStep w cfg ep.clients)
          ⟨acceptStep w cfg ep.clients, 0, []⟩)
        ((acceptStep w cfg ep.clients).map Prod.fst) c _ rfl (fun q => hEnc frame q) hs

/-- If the encoder cannot raise, a round with no frame-chunk send
performed no encode (whole-body level). -/
theorem body_nosends_count (w : World) (cfg : Config) (S : Registry)
    (hEnc : ∀ f q, (w.encode f q).isSome = true)
    (hs : (handle_frame_body w cfg S).out.frameSends = []) :
    (handle_frame_body w cfg S).out.encodeCount = 0 := by
  cases hlook : alookup S (cfg.ip, cfg.port) with
  | some ep0 =>
    simp only [handle_frame_body, hlook] at hs ⊢
    exact rr_nosends_count w cfg S ep0 false hEnc hs
  | none =>
    simp only [handle_frame_body, hlook] at hs ⊢
    by_cases hbind : w.bindOk = true
    · rw [if_pos hbind] at hs ⊢
      exact rr_nosends_count w cfg _ ⟨[], []⟩ true hEnc hs
    · rw [if_neg hbind]
      simp [BodyResult.out]

/-- If the endpoint exists and its `last_times[channel]` stamp is closer
than `min_delay` to `now`, the round issues no frame-chunk send: the
gate of line 206 short-circuits it (or an even earlier exit does). -/
theorem body_skip (w : World) (cfg : Config) (S : Registry) (ep : Endpoint) (t : Tm)
    (hep : alookup S (cfg.ip, cfg.port) = some ep)
    (hlt : alookup ep.last_times cfg.channel = some t)
    (hclose : w.now - t < cfg.min_delay) :
    (handle_frame_body w cfg S).out.frameSends = [] := by
  simp only [handle_frame_body, hep]
  rcases hf : cfg.frame with _ | frame
  · simp only [runRound, hf, BodyResult.out]
  · simp only [runRound, hf]
    unfold runAccepted
    by_cases he : (acceptStep w cfg ep.clients).isEmpty = true
    · rw [if_pos he]
      simp [BodyResult.out]
    · rw [if_neg he]
      have hltinit : ltInit w cfg ep.last_times = ep.last_times := by
        unfold ltInit
        rw [hlt]
        simp
      unfold broadcastPhase
      rw [hltinit, hlt]
      have hcond : (((processClients w cfg (acceptStep w cfg ep.clients)
            ⟨acceptStep w cfg ep.clients, 0, []⟩).cl.filter
              (isReceiver w.now cfg.channel)).isEmpty
          || decide (w.now - (some t).getD 0 < cfg.min_delay)) = true := by
        simp [hclose]
      rw [if_pos hcond]
      simp [BodyResult.out]

/-- `handle_frame` always returns `ok` with the body's final state: the
outer `except Exception` of lines 234-240 catches whatever the body
raised and falls through to `return ret, sent`. -/
theorem hf_returns (w : World) (cfg : Config) (S : Registry) :
    handle_frame w cfg S = .ok ((handle_frame_body w cfg S).out) := by
  unfold handle_frame
  cases h : handle_frame_body w cfg S <;> simp [BodyResult.out]

theorem theOut_eq (w : World) (cfg : Config) (S : Registry) :
    theOut (handle_frame w cfg S) = (handle_frame_body w cfg S).out := by
  rw [hf_returns]
  rfl

theorem sendsFrame_iff (e : Except Unit RoundOut) :
    sendsFrame e = true ↔ (theOut e).frameSends ≠ [] := by
  unfold sendsFrame
  cases (theOut e).frameSends <;> simp

/-- Did the call return normally (as opposed to raising)? -/
def exceptOk (e : Except Unit RoundOut) : Bool :=
  match e with
  | .ok _ => true
  | .error _ => false

/-! ### Exception-path facts (for the error-handling claims) -/

/-- In the broadcast phase, the only exception is the encoder raising;
at that point no frame-chunk send has been issued and the (mutated)
endpoint has been written back into the registry. -/
theorem bp_exn_facts (w : World) (cfg : Config) (frame : Nat) (S1 : Registry)
    (lt : List (String × Tm)) (pcs : PCState) (ret : List Addr) (c : Bool)
    (b : BodyResult) (hb : b = broadcastPhase w cfg frame S1 lt pcs ret c)
    (hexn : b.isExnB = true) :
    b.out.frameSends = [] ∧
    ∃ ep1, alookup b.out.servers (cfg.ip, cfg.port) = some ep1 := by
  unfold broadcastPhase at hb
  split at hb
  · rw [hb] at hexn
    simp [BodyResult.isExnB] at hexn
  · split at hb
    · rw [hb]
      exact ⟨rfl, ⟨_, alookup_aset_self ..⟩⟩
    · rw [hb] at hexn
      simp [BodyResult.isExnB] at hexn

/-- `runRound`-level exception facts. -/
theorem rr_exn_facts (w : World) (cfg : Config) (S1 : Registry) (ep : Endpoint)
    (c : Bool) (hexn : (runRound w cfg S1 ep c).isExnB = true) :
    (runRound w cfg S1 ep c).out.frameSends = [] ∧
    ∃ ep1, alookup (runRound w cfg S1 ep c).out.servers (cfg.ip, cfg.port) = some ep1 := by
  rcases hf : cfg.frame with _ | frame
  · simp only [runRound, hf, BodyResult.isExnB] at hexn
    exact Bool.noConfusion hexn
  · simp only [runRound, hf] at hexn ⊢
    unfold runAccepted at hexn ⊢
    by_cases he : (acceptStep w cfg ep.clients).isEmpty = true
    · rw [if_pos he] at hexn
      simp [BodyResult.isExnB] at hexn
    · rw [if_neg he] at hexn ⊢
      exact bp_exn_facts w cfg frame S1 (ltInit w cfg ep.last_times)
        (processClients w cfg (acceptStep w cfg ep.clients)
          ⟨acceptStep w cfg ep.clients, 0, []⟩)
        ((acceptStep w cfg ep.clients).map Prod.fst) c _ rfl hexn

/-- Whole-body exception facts: an exception round issues no
frame-chunk send, and if it invoked the encoder (so it was not a bind
failure), the endpoint is still registered. -/
theorem body_exn_facts (w : World) (cfg : Config) (S : Registry)
    (hexn : (handle_frame_body w cfg S).isExnB = true) :
    (handle_frame_body w cfg S).out.frameSends = [] ∧
    ((handle_frame_body w cfg S).out.encodeCount = 1 →
      ∃ ep1, alookup (handle_frame_body w cfg S).out.servers (cfg.ip, cfg.port) = some ep1) := by
  cases hlook : alookup S (cfg.ip, cfg.port) with
  | some ep0 =>
    simp only [handle_frame_body, hlook] at hexn ⊢
    obtain ⟨h1, h2⟩ := rr_exn_facts w cfg S ep0 false hexn
    exact ⟨h1, fun _ => h2⟩
  | none =>
    simp only [handle_frame_body, hlook] at hexn ⊢
    by_cases hbind : w.bindOk = true
    · rw [if_pos hbind] at hexn ⊢
      obtain ⟨h1, h2⟩ := rr_exn_facts w cfg _ ⟨[], []⟩ true hexn
      exact ⟨h1, fun _ => h2⟩
    · rw [if_neg hbind]
      refine ⟨rfl, fun hc => ?_⟩
      simp only [BodyResult.out] at hc
      cases hc

/-! ### Concrete scenarios used by the witnesses and counterexamples -/

/-- A round at time 100 on an empty registry: client `A` connects, asks
for channel `c`, and receives both the stream header and (the gate being
open) one frame chunk. -/
def c1w1 : World :=
  { now := 100, bindOk := true, pending := some "A",
    recv := fun a => if a = "A" then some (some "GET /?channel=c") else none,
    sendHdrOk := fun _ => true, sendFrameOk := fun _ => true,
    encode := fun _ _ => some "J" }

/-- A second round only 5 ms later (less than `min_delay = 10 ms`),
with nothing new from the network. -/
def c1w2 : World :=
  { now := 100 + 1 / 200, bindOk := true, pending := none, recv := fun _ => none,
    sendHdrOk := fun _ => true, sendFrameOk := fun _ => true,
    encode := fun _ _ => some "J" }

def c1cfg : Config :=
  { frame := some 7, channel := "c", ip := "", port := 8080, min_delay := 1 / 100,
    default_delay := 1 / 25, max_quality := 95, default_quality := 80,
    default_chan := some "", headers := [] }

/-- C1: a frame chunk is sent only when the receiver set (clients with
`headers_sent`, a matching channel, and an elapsed per-client delay) is
non-empty and `now - last_times[channel] ≥ min_delay`; consequently two
broadcast calls on the same channel and endpoint whose clocks are less
than `min_delay` apart (the second running on the registry the first
left behind) never both send a frame chunk. -/
theorem c1_per_channel_rate_limit :
    (∀ (w : World) (cfg : Config) (S : Registry),
        sendsFrame (handle_frame w cfg S) = true →
          (theOut (handle_frame w cfg S)).receivers ≠ [] ∧
          w.now - (theOut (handle_frame w cfg S)).ltBefore ≥ cfg.min_delay ∧
          ∀ p ∈ (theOut (handle_frame w cfg S)).receivers,
            isReceiver w.now cfg.channel p = true) ∧
    (∀ (w1 w2 : World) (cfg1 cfg2 : Config) (S : Registry),
        cfg1.channel = cfg2.channel → cfg1.ip = cfg2.ip → cfg1.port = cfg2.port →
        cfg1.min_delay = cfg2.min_delay → |w2.now - w1.now| < cfg1.min_delay →
        ¬(sendsFrame (handle_frame w1 cfg1 S) = true ∧
          sendsFrame (handle_frame w2 cfg2
            (theOut (handle_frame w1 cfg1 S)).servers) = true)) := by
  constructor
  · intro w cfg S hsend
    rw [sendsFrame_iff, theOut_eq] at hsend
    obtain ⟨h1, h2, _, _, _, _⟩ := body_sends_facts w cfg S hsend
    refine ⟨by rwa [theOut_eq], by rwa [theOut_eq], ?_⟩
    intro p hp
    rw [theOut_eq] at hp
    exact body_receivers_mem w cfg S hp
  · rintro w1 w2 cfg1 cfg2 S hch hip hport hmd habs ⟨hs1, hs2⟩
    rw [sendsFrame_iff, theOut_eq] at hs1 hs2
    obtain ⟨_, _, _, _, _, ⟨ep2, hep2, hlt2⟩⟩ := body_sends_facts w1 cfg1 S hs1
    have hep2' : alookup (theOut (handle_frame w1 cfg1 S)).servers
        (cfg2.ip, cfg2.port) = some ep2 := by
      rw [theOut_eq, ← hip, ← hport]
      exact hep2
    have hlt2' : alookup ep2.last_times cfg2.channel = some w1.now := by
      rw [← hch]
      exact hlt2
    have hclose : w2.now - w1.now < cfg2.min_delay := by
      calc w2.now - w1.now ≤ |w2.now - w1.now| := le_abs_self _
        _ < cfg1.min_delay := habs
        _ = cfg2.min_delay := hmd
    exact hs2 (body_skip w2 cfg2 _ ep2 w1.now hep2' hlt2' hclose)

/-- Witness for C1 at the concrete scenario: the first round does send
(so the hypotheses are satisfiable), and the pair of rounds 5 ms apart
cannot both send. -/
theorem c1_rate_limit_witness :
    (theOut (handle_frame c1w1 c1cfg [])).receivers ≠ [] ∧
    ¬(sendsFrame (handle_frame c1w1 c1cfg []) = true ∧
      sendsFrame (handle_frame c1w2 c1cfg
        (theOut (handle_frame c1w1 c1cfg [])).servers) = true) :=
  ⟨(c1_per_channel_rate_limit.1 c1w1 c1cfg [] (by decide)).1,
   c1_per_channel_rate_limit.2 c1w1 c1w2 c1cfg c1cfg [] rfl rfl rfl rfl (by decide)⟩

/-- C2: when the encoder backend does not raise, a round that issues
frame-chunk sends invoked the encoder exactly once, at the maximum
quality among the receivers, and handed the identical chunk to every
receiver; a round issuing no frame-chunk send invoked it zero times. -/
theorem c2_encode_once_per_round (w : World) (cfg : Config) (S : Registry)
    (hEnc : ∀ f q, (w.encode f q).isSome = true) :
    ((theOut (handle_frame w cfg S)).frameSends = [] →
      (theOut (handle_frame w cfg S)).encodeCount = 0) ∧
    ((theOut (handle_frame w cfg S)).frameSends ≠ [] →
      (theOut (handle_frame w cfg S)).encodeCount = 1 ∧
      (theOut (handle_frame w cfg S)).encodeQuality
        = some (maxQuality (theOut (handle_frame w cfg S)).receivers) ∧
      ∃ f jpeg, cfg.frame = some f ∧
        w.encode f (maxQuality (theOut (handle_frame w cfg S)).receivers) = some jpeg ∧
        (theOut (handle_frame w cfg S)).frameSends
          = (theOut (handle_frame w cfg S)).receivers.map
              (fun p => (p.1, frame_chunk jpeg (sheadersStr cfg.headers)))) := by
  rw [theOut_eq]
  constructor
  · exact body_nosends_count w cfg S hEnc
  · intro hs
    obtain ⟨_, _, h3, h4, h5, _⟩ := body_sends_facts w cfg S hs
    exact ⟨h3, h4, h5⟩

/-- Witness for C2 at the concrete one-client scenario. -/
theorem c2_encode_once_witness :
    (theOut (handle_frame c1w1 c1cfg [])).encodeCount = 1 ∧
    (theOut (handle_frame c1w1 c1cfg [])).encodeQuality
      = some (maxQuality (theOut (handle_frame c1w1 c1cfg [])).receivers) :=
  ⟨((c2_encode_once_per_round c1w1 c1cfg [] (fun _ _ => rfl)).2 (by decide)).1,
   ((c2_encode_once_per_round c1w1 c1cfg [] (fun _ _ => rfl)).2 (by decide)).2.1⟩

/-- C9: the broadcast entry point is total toward its caller — for every
input it returns normally with a `(ret, sent)` result, no internal
exception escaping the outer handler. -/
theorem c9_broadcast_total (w : World) (cfg : Config) (S : Registry) :
    handle_frame w cfg S = .ok (theOut (handle_frame w cfg S)) := by
  rw [theOut_eq]
  exact hf_returns w cfg S

/-- A string of length zero is the empty string. -/
theorem length_zero_eq_empty {s : String} (h : s.length = 0) : s = "" := by
  cases s with
  | mk data =>
    cases data with
    | nil => rfl
    | cons c cs => simp [String.length] at h

/-- C10: the stream header precedes any frame chunk on every connection:
a newly accepted record starts with `headers_sent = false`; every
receiver of a frame chunk has `headers_sent = true`; and a stored record
can only have `headers_sent = true` if the stream header was sent to it
this round or it already had the flag before the round. -/
theorem c10_header_precedes_frames :
    (∀ cfg : Config, (defaultRecord cfg).headers_sent = false) ∧
    (∀ (w : World) (cfg : Config) (S : Registry),
        ∀ p ∈ (theOut (handle_frame w cfg S)).receivers, p.2.headers_sent = true) ∧
    (∀ (w : World) (cfg : Config) (S : Registry),
        ∀ q ∈ (theOut (handle_frame w cfg S)).frameSends,
          ∃ rec, (q.1, rec) ∈ (theOut (handle_frame w cfg S)).receivers ∧
            rec.headers_sent = true) ∧
    (∀ (w : World) (cfg : Config) (S : Registry) (ep1 : Endpoint) (a : Addr)
        (r1 : ClientRecord),
        alookup (theOut (handle_frame w cfg S)).servers (cfg.ip, cfg.port) = some ep1 →
        (a, r1) ∈ ep1.clients → r1.headers_sent = true →
        a ∈ (theOut (handle_frame w cfg S)).headerSends ∨
          ∃ ep0 r0, alookup S (cfg.ip, cfg.port) = some ep0 ∧ (a, r0) ∈ ep0.clients ∧
            r0.headers_sent = true) := by
  refine ⟨fun cfg => rfl, ?_, ?_, ?_⟩
  · intro w cfg S p hp
    rw [theOut_eq] at hp
    have h := body_receivers_mem w cfg S hp
    simp only [isReceiver, Bool.and_eq_true, decide_eq_true_eq] at h
    exact h.1.1
  · intro w cfg S q hq
    rw [theOut_eq] at hq
    by_cases hfs : (handle_frame_body w cfg S).out.frameSends = []
    · rw [hfs] at hq
      simp at hq
    · obtain ⟨_, _, _, _, ⟨f, jpeg, _, _, hmap⟩, _⟩ := body_sends_facts w cfg S hfs
      rw [hmap] at hq
      obtain ⟨p, hp, hqe⟩ := List.mem_map.1 hq
      have hhs : p.2.headers_sent = true := by
        have h := body_receivers_mem w cfg S hp
        simp only [isReceiver, Bool.and_eq_true, decide_eq_true_eq] at h
        exact h.1.1
      refine ⟨p.2, ?_, hhs⟩
      rw [theOut_eq]
      have hq1 : q.1 = p.1 := by rw [← hqe]
      rw [hq1]
      exact hp
  · intro w cfg S ep1 a r1 h1 h2 h3
    rw [theOut_eq] at h1 ⊢
    exact body_hs_origin w cfg S h1 h2 h3

/-- The record client `A` holds after the `c1w1` round, and the endpoint
it lives in. -/
def recAfterA : ClientRecord :=
  { chan := some "c", quality := 80, delay := 1 / 100, last_sent := 100,
    headers_sent := true }

def epAfterA : Endpoint := ⟨[("c", 100)], [("A", recAfterA)]⟩

/-- Witness for C10 at the concrete scenario: after the `c1w1` round the
stored record of `A` has `headers_sent = true`, and indeed `A` got the
header this round (or was flagged before — it was not). -/
theorem c10_header_precedes_witness :
    "A" ∈ (theOut (handle_frame c1w1 c1cfg [])).headerSends ∨
      ∃ ep0 r0, alookup ([] : Registry) (c1cfg.ip, c1cfg.port) = some ep0 ∧
        ("A", r0) ∈ ep0.clients ∧ r0.headers_sent = true :=
  c10_header_precedes_frames.2.2.2 c1w1 c1cfg [] epAfterA "A" recAfterA
    (by decide) (by decide) (by decide)

/-! ### C3: the re-negotiation update -/

/-- C3 (amended): a parsed non-index request updates the stored record
as follows — quality becomes `min(max_quality, q)` for a present,
convertible `quality=q` and `min(max_quality, old_quality)` otherwise;
delay becomes `max(min_delay, d * 1e-3)` for a present, convertible
`delay=d` and `max(min_delay, old_delay * 1e-3)` otherwise (the stored
seconds value is run through the millisecond conversion again); the
channel comes from `channel`, else `source`, else is unchanged;
`last_sent` is kept and `headers_sent` is set. -/
theorem c3_negotiation_update (cfg : Config) (data : String) (rec r : ClientRecord)
    (hstep : stepClient cfg (some (some data)) rec = .nego r) :
    (∀ s, pyDictGet (paramREfindall data) "quality" = some s →
       ∃ q0, pyInt s = some q0 ∧ r.quality = min cfg.max_quality q0) ∧
    (pyDictGet (paramREfindall data) "quality" = none →
       r.quality = min cfg.max_quality rec.quality) ∧
    (∀ s, pyDictGet (paramREfindall data) "delay" = some s →
       ∃ d0, pyFloat s = some d0 ∧ r.delay = max cfg.min_delay (d0 * (1 / 1000))) ∧
    (pyDictGet (paramREfindall data) "delay" = none →
       r.delay = max cfg.min_delay (rec.delay * (1 / 1000))) ∧
    (∀ c, pyDictGet (paramREfindall data) "channel" = some c → r.chan = some c) ∧
    (pyDictGet (paramREfindall data) "channel" = none →
       (∀ c, pyDictGet (paramREfindall data) "source" = some c → r.chan = some c) ∧
       (pyDictGet (paramREfindall data) "source" = none → r.chan = rec.chan)) ∧
    r.last_sent = rec.last_sent ∧ r.headers_sent = true := by
  simp only [stepClient] at hstep
  by_cases hlen : data.length = 0
  · rw [if_pos hlen] at hstep
    cases hstep
  · rw [if_neg hlen] at hstep
    split at hstep
    · cases hstep
    · split at hstep
      · cases hstep
      · rename_i q0 hq
        split at hstep
        · cases hstep
        · rename_i d0 hd
          injection hstep with hrec
          subst hrec
          refine ⟨?_, ?_, ?_, ?_, ?_, ?_, rfl, rfl⟩
          · intro s hs
            simp only [hs] at hq
            exact ⟨q0, hq, rfl⟩
          · intro hnone
            simp only [hnone, Option.some.injEq] at hq
            rw [hq]
          · intro s hs
            simp only [hs] at hd
            exact ⟨d0, hd, rfl⟩
          · intro hnone
            simp only [hnone, Option.some.injEq] at hd
            rw [hd]
          · intro c hc
            simp only [hc]
          · intro hnone
            refine ⟨fun c hc => ?_, fun hsrc => ?_⟩
            · simp only [hnone, hc]
            · simp only [hnone, hsrc]

def c3S : Registry :=
  [(("", 8080), ⟨[("c", 0)], [("A", ⟨some "c", 80, 1 / 25, 0, true⟩)]⟩)]

def c3w : World :=
  { now := 100, bindOk := true, pending := none,
    recv := fun a => if a = "A" then some (some "GET /x") else none,
    sendHdrOk := fun _ => true, sendFrameOk := fun _ => true,
    encode := fun _ _ => some "J" }

/-- Counterexample to C3 as stated: the request `GET /x` parses (path
`x`, no params at all — in particular no `delay` param), yet the stored
delay changes from `1/25 = 0.040` to `1/100 = 0.010`, because the code
re-applies the millisecond conversion to the stored seconds value. -/
theorem c3_delay_not_preserved :
    pyDictGet (paramREfindall "GET /x") "delay" = none ∧
    getREfindall "GET /x" = ["x"] ∧
    storedClient (handle_frame c3w c1cfg c3S) ("", 8080) "A"
      = some ⟨some "c", 80, 1 / 100, 100, true⟩ ∧
    ((1 : Tm) / 100 ≠ 1 / 25) := by
  refine ⟨by decide, by decide, by decide, by decide⟩

/-- Witness for the amended C3 at a concrete parsed request
(`GET /?quality=50` against a stored record with quality 80 and delay
`1/25`). -/
theorem c3_negotiation_update_witness :
    ∃ q0, pyInt "50" = some q0 ∧
      (⟨some "c", 50, 1 / 100, 0, true⟩ : ClientRecord).quality
        = min c1cfg.max_quality q0 :=
  (c3_negotiation_update c1cfg "GET /?quality=50" ⟨some "c", 80, 1 / 25, 0, true⟩
    ⟨some "c", 50, 1 / 100, 0, true⟩ (by decide)).1 "50" (by decide)

/-! ### C4: re-negotiation of a HeadersSent client -/

/-- C4 (amended): when a client whose `headers_sent` flag is already
true sends a further parseable non-index request, the re-negotiated
record is stored — and the multipart stream header IS sent to that
client again (the send of line 198 is unconditional): on a successful
send the byte counter grows by the header length and the client is
recorded among this round's header recipients. -/
theorem c4_renegotiation_resends_header (w : World) (cfg : Config) (st : PCState)
    (p : Addr × ClientRecord) (r : ClientRecord)
    (_hhs : p.2.headers_sent = true)
    (hstep : stepClient cfg (w.recv p.1) p.2 = CStep.nego r)
    (hok : w.sendHdrOk p.1 = true) :
    applyClient w cfg st p
      = ⟨aset st.cl p.1 r, st.sent + STREAM_HEADER.length, st.hdrs ++ [p.1]⟩ := by
  simp only [applyClient, hstep]
  rw [if_pos hok]

def c4S : Registry :=
  [(("", 8080), ⟨[("x", 0)], [("A", ⟨some "c", 80, 1 / 25, 0, true⟩)]⟩)]

def c4cfg : Config :=
  { frame := some 7, channel := "x", ip := "", port := 8080, min_delay := 1 / 100,
    default_delay := 1 / 25, max_quality := 95, default_quality := 80,
    default_chan := some "", headers := [] }

def c4w : World :=
  { now := 100, bindOk := true, pending := none,
    recv := fun a => if a = "A" then some (some "GET /?quality=50") else none,
    sendHdrOk := fun _ => true, sendFrameOk := fun _ => true,
    encode := fun _ _ => some "J" }

/-- Counterexample to C4 as stated: client `A` is already in the
HeadersSent state (`headers_sent = true` in `c4S`), sends a further
parseable request, and the round nevertheless sends the stream header to
`A` again (`A` is in `headerSends` and the header's bytes are counted),
while the re-negotiated quality 50 is stored. -/
theorem c4_header_resent :
    (alookup c4S ("", 8080)).map (fun ep => alookup ep.clients "A")
      = some (some ⟨some "c", 80, 1 / 25, 0, true⟩) ∧
    (theOut (handle_frame c4w c4cfg c4S)).headerSends = ["A"] ∧
    (theOut (handle_frame c4w c4cfg c4S)).sent = STREAM_HEADER.length ∧
    storedClient (handle_frame c4w c4cfg c4S) ("", 8080) "A"
      = some ⟨some "c", 50, 1 / 100, 0, true⟩ := by
  refine ⟨by decide, by decide, by decide, by decide⟩

/-- Witness for the amended C4: the concrete HeadersSent client `A`
re-negotiates and receives the header again. -/
theorem c4_renegotiation_witness :
    applyClient c4w c4cfg ⟨[("A", ⟨some "c", 80, 1 / 25, 0, true⟩)], 0, []⟩
        ("A", ⟨some "c", 80, 1 / 25, 0, true⟩)
      = ⟨aset [("A", ⟨some "c", 80, 1 / 25, 0, true⟩)] "A"
            ⟨some "c", 50, 1 / 100, 0, true⟩,
         0 + STREAM_HEADER.length, [] ++ ["A"]⟩ :=
  c4_renegotiation_resends_header c4w c4cfg _ _ _ rfl (by decide) rfl

/-! ### C5: encoder failure -/

/-- C5 (amended): if the encoder raises during a broadcast round, the
exception does NOT propagate to the caller — the outer handler catches
it and the call returns the accumulated `(ret, sent)` normally; no frame
chunk is sent, and the endpoint (with the clients as mutated earlier in
the round) remains registered for the next call. -/
theorem c5_encode_failure_caught (w : World) (cfg : Config) (S : Registry)
    (hexn : (handle_frame_body w cfg S).isExnB = true) :
    handle_frame w cfg S = .ok ((handle_frame_body w cfg S).out) ∧
    (handle_frame_body w cfg S).out.frameSends = [] ∧
    ((handle_frame_body w cfg S).out.encodeCount = 1 →
      ∃ ep1, alookup (handle_frame_body w cfg S).out.servers (cfg.ip, cfg.port)
        = some ep1) := by
  obtain ⟨h1, h2⟩ := body_exn_facts w cfg S hexn
  exact ⟨hf_returns w cfg S, h1, h2⟩

def c5S : Registry :=
  [(("", 8080), ⟨[("c", 0)], [("A", ⟨some "c", 80, 1 / 100, 0, true⟩)]⟩)]

def c5w : World :=
  { now := 100, bindOk := true, pending := none, recv := fun _ => none,
    sendHdrOk := fun _ => true, sendFrameOk := fun _ => true,
    encode := fun _ _ => none }

/-- Counterexample to C5 as stated: with a ready receiver and an encoder
that raises, the body does raise into the outer handler — but the call
still returns `ok` (nothing propagates to the caller), the encoder was
invoked once, no frame was sent, and client `A`'s record is untouched. -/
theorem c5_no_propagation :
    (handle_frame_body c5w c1cfg c5S).isExnB = true ∧
    exceptOk (handle_frame c5w c1cfg c5S) = true ∧
    (theOut (handle_frame c5w c1cfg c5S)).encodeCount = 1 ∧
    (theOut (handle_frame c5w c1cfg c5S)).frameSends = [] ∧
    storedClient (handle_frame c5w c1cfg c5S) ("", 8080) "A"
      = some ⟨some "c", 80, 1 / 100, 0, true⟩ := by
  refine ⟨by decide, by decide, by decide, by decide, by decide⟩

/-- Witness for the amended C5 at the concrete encoder-failure round. -/
theorem c5_encode_failure_witness :
    handle_frame c5w c1cfg c5S = .ok ((handle_frame_body c5w c1cfg c5S).out) ∧
    (handle_frame_body c5w c1cfg c5S).out.frameSends = [] :=
  ⟨(c5_encode_failure_caught c5w c1cfg c5S (by decide)).1,
   (c5_encode_failure_caught c5w c1cfg c5S (by decide)).2.1⟩

/-! ### C6: bind/listen failure -/

/-- C6 (amended): when no endpoint exists for `(ip, port)` and
`bind`/`listen` fails, the exception is caught by the outer handler —
the call returns `([], 0)` normally (nothing propagates to the caller)
and no Endpoint is registered for that `(ip, port)`. -/
theorem c6_bind_failure_caught (w : World) (cfg : Config) (S : Registry)
    (hnone : alookup S (cfg.ip, cfg.port) = none) (hbind : w.bindOk = false) :
    handle_frame w cfg S = .ok ((handle_frame_body w cfg S).out) ∧
    (handle_frame_body w cfg S).out.servers = S ∧
    (handle_frame_body w cfg S).out.ret = [] ∧
    (handle_frame_body w cfg S).out.sent = 0 ∧
    alookup (handle_frame_body w cfg S).out.servers (cfg.ip, cfg.port) = none := by
  have hsrv : (handle_frame_body w cfg S).out.servers = S := by
    simp [handle_frame_body, hnone, hbind, BodyResult.out]
  refine ⟨hf_returns w cfg S, hsrv, ?_, ?_, ?_⟩
  · simp [handle_frame_body, hnone, hbind, BodyResult.out]
  · simp [handle_frame_body, hnone, hbind, BodyResult.out]
  · rw [hsrv]
    exact hnone

def c6w : World :=
  { now := 100, bindOk := false, pending := none, recv := fun _ => none,
    sendHdrOk := fun _ => true, sendFrameOk := fun _ => true,
    encode := fun _ _ => some "J" }

/-- Counterexample to C6 as stated: on a fresh `(ip, port)` whose bind
fails, the call returns normally (`ok`) — the failure is not propagated
to the caller — while indeed nothing is registered. -/
theorem c6_no_propagation :
    (handle_frame_body c6w c1cfg []).isExnB = true ∧
    exceptOk (handle_frame c6w c1cfg []) = true ∧
    (theOut (handle_frame c6w c1cfg [])).servers = [] := by
  refine ⟨by decide, by decide, by decide⟩

/-- Witness for the amended C6 at the concrete bind-failure round. -/
theorem c6_bind_failure_witness :
    handle_frame c6w c1cfg [] = .ok ((handle_frame_body c6w c1cfg []).out) ∧
    (handle_frame_body c6w c1cfg []).out.servers = ([] : Registry) :=
  ⟨(c6_bind_failure_caught c6w c1cfg [] rfl rfl).1,
   (c6_bind_failure_caught c6w c1cfg [] rfl rfl).2.1⟩

/-! ### C7: double teardown -/

/-- C7 (amended): a teardown call for a `(host, port)` with no
registered Endpoint does not error and finishes with the registry as it
started (no endpoint registered, `([], 0)` returned) — but it does NOT
short-circuit: a fresh listening socket is created (socket + bind +
listen, lines 137-140), a fresh Endpoint is registered and immediately
torn down again. -/
theorem c7_second_teardown_recreates (w : World) (cfg : Config) (S : Registry)
    (hframe : cfg.frame = none) (hnone : alookup S (cfg.ip, cfg.port) = none) :
    handle_frame w cfg S = .ok ((handle_frame_body w cfg S).out) ∧
    (handle_frame_body w cfg S).out.servers = S ∧
    (handle_frame_body w cfg S).out.socketCreated = true ∧
    (handle_frame_body w cfg S).out.ret = [] ∧
    (handle_frame_body w cfg S).out.sent = 0 := by
  have hmain : (handle_frame_body w cfg S).out.servers = S ∧
      (handle_frame_body w cfg S).out.socketCreated = true ∧
      (handle_frame_body w cfg S).out.ret = [] ∧
      (handle_frame_body w cfg S).out.sent = 0 := by
    simp only [handle_frame_body, hnone]
    by_cases hbind : w.bindOk = true
    · rw [if_pos hbind]
      simp only [runRound, hframe, BodyResult.out]
      exact ⟨aremove_aset_of_lookup_none _ hnone, trivial, trivial, trivial⟩
    · rw [if_neg hbind]
      simp only [BodyResult.out]
      exact ⟨trivial, trivial, trivial, trivial⟩
  exact ⟨hf_returns w cfg S, hmain.1, hmain.2.1, hmain.2.2.1, hmain.2.2.2⟩

def c7S : Registry := [(("", 8080), ⟨[("c", 50)], []⟩)]

def c7cfg : Config :=
  { frame := none, channel := "c", ip := "", port := 8080, min_delay := 1 / 100,
    default_delay := 1 / 25, max_quality := 95, default_quality := 80,
    default_chan := some "", headers := [] }

def c7w : World :=
  { now := 60, bindOk := true, pending := none, recv := fun _ => none,
    sendHdrOk := fun _ => true, sendFrameOk := fun _ => true,
    encode := fun _ _ => some "J" }

/-- Counterexample to C7 as stated: after a first teardown removes the
endpoint, a second teardown call for the same `(host, port)` does create
a new listening socket (lines 137-140 run again) — there is no
"no frame, no endpoint" short-circuit in the code. -/
theorem c7_socket_recreated :
    alookup (theOut (handle_frame c7w c7cfg c7S)).servers ("", 8080) = none ∧
    (theOut (handle_frame c7w c7cfg
        (theOut (handle_frame c7w c7cfg c7S)).servers)).socketCreated = true ∧
    (theOut (handle_frame c7w c7cfg
        (theOut (handle_frame c7w c7cfg c7S)).servers)).servers
      = (theOut (handle_frame c7w c7cfg c7S)).servers := by
  refine ⟨by decide, by decide, by decide⟩

/-- Witness for the amended C7: the second teardown call, on the
registry the first left behind. -/
theorem c7_second_teardown_witness :
    (handle_frame_body c7w c7cfg
        (theOut (handle_frame c7w c7cfg c7S)).servers).out.servers
      = (theOut (handle_frame c7w c7cfg c7S)).servers ∧
    (handle_frame_body c7w c7cfg
        (theOut (handle_frame c7w c7cfg c7S)).servers).out.socketCreated = true :=
  ⟨(c7_second_teardown_recreates c7w c7cfg _ rfl (by decide)).2.1,
   (c7_second_teardown_recreates c7w c7cfg _ rfl (by decide)).2.2.1⟩

/-! ### C8: protocol errors -/

/-- C8 (amended): an empty read and an unreadable/undecodable read are
protocol errors — the client is deleted with no reply and no byte
counted.  But a non-empty decodable buffer in which no `GET` request and
no `key=value` token can be found is NOT dropped: it is treated as a
request with empty params, so (when the header send succeeds) the client
is re-stored with clamped quality, re-converted delay, unchanged
channel, `headers_sent` set — and receives the stream header. -/
theorem c8_protocol_errors (w : World) (cfg : Config) (st : PCState)
    (p : Addr × ClientRecord) :
    (w.recv p.1 = some (some "") →
       applyClient w cfg st p = ⟨aremove st.cl p.1, st.sent, st.hdrs⟩) ∧
    (w.recv p.1 = some none →
       applyClient w cfg st p = ⟨aremove st.cl p.1, st.sent, st.hdrs⟩) ∧
    (∀ data, w.recv p.1 = some (some data) → data ≠ "" →
       getREfindall data = [] → paramREfindall data = [] → w.sendHdrOk p.1 = true →
       applyClient w cfg st p
         = ⟨aset st.cl p.1
              ⟨p.2.chan, min cfg.max_quality p.2.quality,
               max cfg.min_delay (p.2.delay * (1 / 1000)), p.2.last_sent, true⟩,
            st.sent + STREAM_HEADER.length, st.hdrs ++ [p.1]⟩) := by
  refine ⟨?_, ?_, ?_⟩
  · intro h
    have hstep : stepClient cfg (some (some "")) p.2 = CStep.drop := rfl
    simp only [applyClient, h, hstep]
  · intro h
    have hstep : stepClient cfg (some none) p.2 = CStep.drop := rfl
    simp only [applyClient, h, hstep]
  · intro data h hne hget hparam hok
    have hlen : ¬data.length = 0 := fun hx => hne (length_zero_eq_empty hx)
    have hstep : stepClient cfg (some (some data)) p.2
        = CStep.nego ⟨p.2.chan, min cfg.max_quality p.2.quality,
            max cfg.min_delay (p.2.delay * (1 / 1000)), p.2.last_sent, true⟩ := by
      simp only [stepClient, hget, hparam]
      rw [if_neg hlen]
      simp [pyDictGet]
    simp only [applyClient, h, hstep]
    rw [if_pos hok]

def c8S : Registry :=
  [(("", 8080), ⟨[("x", 0)], [("A", ⟨some "c", 80, 1 / 25, 0, false⟩)]⟩)]

def c8w : World :=
  { now := 100, bindOk := true, pending := none,
    recv := fun a => if a = "A" then some (some "XYZ") else none,
    sendHdrOk := fun _ => true, sendFrameOk := fun _ => true,
    encode := fun _ _ => some "J" }

def c8cfg : Config :=
  { frame := some 7, channel := "x", ip := "", port := 8080, min_delay := 1 / 100,
    default_delay := 1 / 25, max_quality := 95, default_quality := 80,
    default_chan := some "", headers := [] }

/-- Counterexample to C8 as stated: `XYZ` is a non-empty buffer from
which no request can be parsed (no `GET` match, no `key=value` token),
yet the client is NOT dropped — it is kept, moved to HeadersSent, and
even billed a stream header. -/
theorem c8_unparsable_kept :
    getREfindall "XYZ" = [] ∧ paramREfindall "XYZ" = [] ∧ ("XYZ" : String) ≠ "" ∧
    storedClient (handle_frame c8w c8cfg c8S) ("", 8080) "A"
      = some ⟨some "c", 80, 1 / 100, 0, true⟩ ∧
    (theOut (handle_frame c8w c8cfg c8S)).sent = STREAM_HEADER.length := by
  refine ⟨by decide, by decide, by decide, by decide, by decide⟩

def c8wEmpty : World :=
  { now := 100, bindOk := true, pending := none,
    recv := fun a => if a = "A" then some (some "") else none,
    sendHdrOk := fun _ => true, sendFrameOk := fun _ => true,
    encode := fun _ _ => some "J" }

/-- Witness for the amended C8: an empty read drops the concrete client;
the unparsable buffer `XYZ` keeps it. -/
theorem c8_protocol_errors_witness :
    applyClient c8wEmpty c8cfg ⟨[("A", ⟨some "c", 80, 1 / 25, 0, false⟩)], 0, []⟩
        ("A", ⟨some "c", 80, 1 / 25, 0, false⟩)
      = ⟨aremove [("A", ⟨some "c", 80, 1 / 25, 0, false⟩)] "A", 0, []⟩ ∧
    applyClient c8w c8cfg ⟨[("A", ⟨some "c", 80, 1 / 25, 0, false⟩)], 0, []⟩
        ("A", ⟨some "c", 80, 1 / 25, 0, false⟩)
      = ⟨aset [("A", ⟨some "c", 80, 1 / 25, 0, false⟩)] "A"
            ⟨some "c", min c8cfg.max_quality 80,
             max c8cfg.min_delay ((1 / 25 : Tm) * (1 / 1000)), 0, true⟩,
         0 + STREAM_HEADER.length, [] ++ ["A"]⟩ :=
  ⟨(c8_protocol_errors c8wEmpty c8cfg _ _).1 rfl,
   (c8_protocol_errors c8w c8cfg _ _).2.2 "XYZ" rfl (by decide) (by decide) (by decide) rfl⟩

end Gavin
